import Mathlib

/-!
Shallow embedding of `src/utils.py` of CanvasQuizMaker: the expression
evaluator (`_eval_expr`), value coercion (`_to_number`), markdown formatter
(`format_text`), template renderer (`render_with_sample`), answer-key
evaluator (`evaluate_expression`), and the sample generators
(`generate_value`, `generate_sample`, `generate_all_combinations`).

Python values are modelled by `PyVal`; Python's global random source is
modelled by threading an explicit oracle stream `RNG` (a list of naturals):
each draw consumes one oracle value and maps it into the requested range, so
quantifying over all streams quantifies over every value the source's
`random.randint` / `random.choice` can produce.  Python floats are modelled
as exact rationals (IEEE rounding is not observed by any property proved
here).  Exceptions are modelled with `Except`/sentinel returns exactly where
the source catches or leaks them.  All scanning functions take an explicit
fuel argument (always instantiated with more than the input length) so that
every definition reduces by kernel computation.
-/

/-- Model of a Python runtime value, covering the constructors reachable in
`utils.py`: numbers, strings, containers, the builtin-function objects bound
into the evaluator's symbol table, type objects (reachable via the
`__class__` attribute), the `math` module constants (whose numeric values
the model does not compute), and `None`. -/
inductive PyVal where
  | vNone : PyVal
  | vBool : Bool → PyVal
  | vInt : Int → PyVal
  | vFloat : Rat → PyVal
  | vStr : String → PyVal
  | vList : List PyVal → PyVal
  | vTuple : List PyVal → PyVal
  | vDict : List (PyVal × PyVal) → PyVal
  | vBuiltin : String → PyVal
  | vType : String → PyVal
  | vMathConst : String → PyVal
  deriving Repr

open PyVal

/-- A sample / context: Python dict from variable names to values, modelled
as an association list in insertion order (later entries override earlier
ones on lookup, mirroring dict update order). -/
abbrev Sample := List (String × PyVal)

/-- Dict lookup with Python update semantics: the rightmost binding wins. -/
def lookupLast (s : Sample) (k : String) : Option PyVal :=
  match s with
  | [] => Option.none
  | (k', v) :: rest =>
    match lookupLast rest k with
    | some w => some w
    | Option.none => if k' = k then some v else Option.none

/-- Python's `type(v).__name__` for the modelled values. -/
def typeName : PyVal → String
  | vNone => "NoneType"
  | vBool _ => "bool"
  | vInt _ => "int"
  | vFloat _ => "float"
  | vStr _ => "str"
  | vList _ => "list"
  | vTuple _ => "tuple"
  | vDict _ => "dict"
  | vBuiltin _ => "builtin_function_or_method"
  | vType _ => "type"
  | vMathConst _ => "float"

/-- Test for the error sentinel string `"<err>"` (Python `val == "<err>"`:
only the string `"<err>"` compares equal to it among modelled values). -/
def isErrSentinel : PyVal → Bool
  | vStr s => s = "<err>"
  | _ => false

-- ### Value coercion (`_to_number`, utils.py lines 10-24)

/-- Numeric value of a decimal digit list (most significant first). -/
def digitsVal (base : Nat) (ds : List Char) : Nat :=
  ds.foldl (fun a c =>
    a * base +
      (if c.isDigit then c.toNat - 48
       else if 'a' ≤ c ∧ c ≤ 'f' then c.toNat - 87
       else if 'A' ≤ c ∧ c ≤ 'F' then c.toNat - 55
       else 0)) 0

def isBinDigit (c : Char) : Bool := c = '0' ∨ c = '1'
def isOctDigit (c : Char) : Bool := '0' ≤ c ∧ c ≤ '7'
def isHexDigitCh (c : Char) : Bool :=
  c.isDigit ∨ ('a' ≤ c ∧ c ≤ 'f') ∨ ('A' ≤ c ∧ c ≤ 'F')

/-- Python `int(s, 0)` on an already-stripped string: optional sign, then a
`0x`/`0o`/`0b` prefixed literal or a decimal literal (leading zeros only
allowed when the value is zero).  Returns `Option.none` where CPython raises
`ValueError`.  (Underscore digit separators are outside the modelled
fragment.) -/
def parseIntBase0 (s : List Char) : Option Int :=
  let (sgn, rest) : Int × List Char :=
    match s with
    | '+' :: r => (1, r)
    | '-' :: r => (-1, r)
    | r => (1, r)
  match rest with
  | '0' :: x :: ds =>
    if (x = 'x' ∨ x = 'X') ∧ ds ≠ [] ∧ ds.all isHexDigitCh then
      some (sgn * (digitsVal 16 ds : Int))
    else if (x = 'o' ∨ x = 'O') ∧ ds ≠ [] ∧ ds.all isOctDigit then
      some (sgn * (digitsVal 8 ds : Int))
    else if (x = 'b' ∨ x = 'B') ∧ ds ≠ [] ∧ ds.all isBinDigit then
      some (sgn * (digitsVal 2 ds : Int))
    else if (x :: ds).all (fun c => c = '0') then some 0
    else Option.none
  | ['0'] => some 0
  | d :: ds =>
    if d.isDigit ∧ d ≠ '0' ∧ ds.all Char.isDigit then
      some (sgn * (digitsVal 10 (d :: ds) : Int))
    else Option.none
  | [] => Option.none

/-- Python `float(s)` on an already-stripped string: optional sign, decimal
mantissa with optional fractional part, optional decimal exponent.  Returns
`Option.none` where CPython raises `ValueError` (`inf`/`nan` spellings are
outside the modelled fragment). -/
def parseFloatLit (s : List Char) : Option Rat :=
  let (sgn, rest) : Rat × List Char :=
    match s with
    | '+' :: r => (1, r)
    | '-' :: r => (-1, r)
    | r => (1, r)
  let ip := rest.takeWhile Char.isDigit
  let afterIp := rest.dropWhile Char.isDigit
  let (fp, afterFp) : List Char × List Char :=
    match afterIp with
    | '.' :: r2 => (r2.takeWhile Char.isDigit, r2.dropWhile Char.isDigit)
    | r2 => ([], r2)
  let hasDot : Bool := match afterIp with | '.' :: _ => true | _ => false
  if ip = [] ∧ (¬ hasDot ∨ fp = []) then Option.none
  else
    let mant : Rat := (digitsVal 10 ip : Nat) + (digitsVal 10 fp : Nat) / ((10 : Rat) ^ fp.length)
    match afterFp with
    | [] => some (sgn * mant)
    | e :: r3 =>
      if e = 'e' ∨ e = 'E' then
        let (esgn, r4) : Bool × List Char :=
          match r3 with
          | '+' :: r5 => (false, r5)
          | '-' :: r5 => (true, r5)
          | r5 => (false, r5)
        if r4 ≠ [] ∧ r4.all Char.isDigit then
          let ex := digitsVal 10 r4
          some (sgn * mant * (if esgn then ((10 : Rat) ^ ex)⁻¹ else (10 : Rat) ^ ex))
        else Option.none
      else Option.none

/-- Python whitespace for `str.strip()` (ASCII fragment). -/
def isPySpace (c : Char) : Bool :=
  c = ' ' ∨ c = '\t' ∨ c = '\x0a' ∨ c = '\x0d' ∨ c = '\x0b' ∨ c = '\x0c'

/-- Python `s.strip()`: drop leading and trailing whitespace. -/
def pyStrip (s : String) : String :=
  String.mk (((s.data.dropWhile isPySpace).reverse.dropWhile isPySpace).reverse)

/-- `_to_number` (utils.py lines 10-24).  Numbers (including `bool`, a
subclass of `int` in Python) pass through; strings are stripped and parsed
as `int(s, 0)`, falling back to `float(s)`, falling back to the original
value (the outer `except` returns `v`); every other value falls off the end
of the Python function body and is therefore returned as `None`. -/
def _to_number (v : PyVal) : PyVal :=
  match v with
  | vInt _ => v
  | vFloat _ => v
  | vBool _ => v
  | vStr s =>
    let st := pyStrip s
    match parseIntBase0 st.data with
    | some n => vInt n
    | Option.none =>
      match parseFloatLit st.data with
      | some q => vFloat q
      | Option.none => v
  | _ => vNone

-- ### Expression evaluator (`_eval_expr`, utils.py lines 27-88)

/-- Binary operators of the modelled Python expression fragment. -/
inductive BinOp where
  | add | sub | mul
  deriving Repr, DecidableEq

/-- AST of the modelled fragment of Python's expression grammar: names,
integer/keyword-constant literals, `+`/`-`/`*`, unary minus, parentheses
(structural) and attribute access.  Expression strings outside this
fragment are treated as evaluation failures, exactly as CPython treats
genuinely malformed input. -/
inductive PyExpr where
  | name : String → PyExpr
  | numLit : Nat → PyExpr
  | boolLit : Bool → PyExpr
  | noneLit : PyExpr
  | binop : BinOp → PyExpr → PyExpr → PyExpr
  | neg : PyExpr → PyExpr
  | attr : PyExpr → String → PyExpr
  deriving Repr

/-- Tokens of the modelled expression fragment. -/
inductive Tok where
  | id : String → Tok
  | num : Nat → Tok
  | lpar | rpar | dot | plus | minus | star
  deriving Repr, DecidableEq

def identStartChar (c : Char) : Bool := c.isAlpha ∨ c = '_'
def identChar (c : Char) : Bool := c.isAlphanum ∨ c = '_'

/-- Tokenizer for the modelled fragment (fuel-driven; fuel is always called
with more than the input length).  Python rejects decimal literals with
leading zeros, mirrored here; any character outside the fragment is a
syntax error (`Option.none`). -/
def tokenize : Nat → List Char → Option (List Tok)
  | 0, _ => Option.none
  | _ + 1, [] => some []
  | fuel + 1, c :: cs =>
    if c = ' ' ∨ c = '\t' then tokenize fuel cs
    else if identStartChar c then
      (tokenize fuel (cs.dropWhile identChar)).map
        (fun ts => Tok.id (String.mk (c :: cs.takeWhile identChar)) :: ts)
    else if c.isDigit then
      if c = '0' ∧ cs.takeWhile Char.isDigit ≠ [] then Option.none
      else (tokenize fuel (cs.dropWhile Char.isDigit)).map
        (fun ts => Tok.num (digitsVal 10 (c :: cs.takeWhile Char.isDigit)) :: ts)
    else if c = '(' then (tokenize fuel cs).map (fun ts => Tok.lpar :: ts)
    else if c = ')' then (tokenize fuel cs).map (fun ts => Tok.rpar :: ts)
    else if c = '.' then (tokenize fuel cs).map (fun ts => Tok.dot :: ts)
    else if c = '+' then (tokenize fuel cs).map (fun ts => Tok.plus :: ts)
    else if c = '-' then (tokenize fuel cs).map (fun ts => Tok.minus :: ts)
    else if c = '*' then (tokenize fuel cs).map (fun ts => Tok.star :: ts)
    else Option.none

mutual

/-- `addExpr := mulExpr (('+'|'-') mulExpr)*` (left associative). -/
def parseAdd : Nat → List Tok → Option (PyExpr × List Tok)
  | 0, _ => Option.none
  | fuel + 1, ts => do
    let (a, ts1) ← parseMul fuel ts
    parseAddRest fuel a ts1

def parseAddRest : Nat → PyExpr → List Tok → Option (PyExpr × List Tok)
  | 0, _, _ => Option.none
  | fuel + 1, a, Tok.plus :: ts => do
    let (b, ts1) ← parseMul fuel ts
    parseAddRest fuel (PyExpr.binop BinOp.add a b) ts1
  | fuel + 1, a, Tok.minus :: ts => do
    let (b, ts1) ← parseMul fuel ts
    parseAddRest fuel (PyExpr.binop BinOp.sub a b) ts1
  | _ + 1, a, ts => some (a, ts)

/-- `mulExpr := unary ('*' unary)*`. -/
def parseMul : Nat → List Tok → Option (PyExpr × List Tok)
  | 0, _ => Option.none
  | fuel + 1, ts => do
    let (a, ts1) ← parseUnary fuel ts
    parseMulRest fuel a ts1

def parseMulRest : Nat → PyExpr → List Tok → Option (PyExpr × List Tok)
  | 0, _, _ => Option.none
  | fuel + 1, a, Tok.star :: ts => do
    let (b, ts1) ← parseUnary fuel ts
    parseMulRest fuel (PyExpr.binop BinOp.mul a b) ts1
  | _ + 1, a, ts => some (a, ts)

def parseUnary : Nat → List Tok → Option (PyExpr × List Tok)
  | 0, _ => Option.none
  | fuel + 1, Tok.minus :: ts =>
    (parseUnary fuel ts).map (fun p => (PyExpr.neg p.1, p.2))
  | fuel + 1, ts => parsePost fuel ts

/-- `postfix := atom ('.' ident)*` (attribute access). -/
def parsePost : Nat → List Tok → Option (PyExpr × List Tok)
  | 0, _ => Option.none
  | fuel + 1, ts => do
    let (a, ts1) ← parseAtom fuel ts
    parsePostRest fuel a ts1

def parsePostRest : Nat → PyExpr → List Tok → Option (PyExpr × List Tok)
  | 0, _, _ => Option.none
  | fuel + 1, a, Tok.dot :: Tok.id s :: ts => parsePostRest fuel (PyExpr.attr a s) ts
  | _ + 1, a, ts => some (a, ts)

/-- Atoms.  CPython's compiler treats the keyword constants `True`,
`False`, `None` — and the compile-time constant `__debug__` (true outside
`-O` mode) — as literals, so they evaluate successfully even with empty
builtins; every other identifier is a name looked up at run time. -/
def parseAtom : Nat → List Tok → Option (PyExpr × List Tok)
  | 0, _ => Option.none
  | _ + 1, Tok.id s :: ts =>
    if s = "True" then some (PyExpr.boolLit true, ts)
    else if s = "False" then some (PyExpr.boolLit false, ts)
    else if s = "None" then some (PyExpr.noneLit, ts)
    else if s = "__debug__" then some (PyExpr.boolLit true, ts)
    else some (PyExpr.name s, ts)
  | _ + 1, Tok.num n :: ts => some (PyExpr.numLit n, ts)
  | fuel + 1, Tok.lpar :: ts => do
    let (a, ts1) ← parseAdd fuel ts
    match ts1 with
    | Tok.rpar :: ts2 => some (a, ts2)
    | _ => Option.none
  | _ + 1, _ => Option.none

end

/-- CPython's parse of an expression string, restricted to the modelled
fragment: tokenize, parse a full expression, require all tokens consumed. -/
def parseExprStr (s : String) : Option PyExpr :=
  match tokenize (s.data.length + 1) s.data with
  | Option.none => Option.none
  | some ts =>
    match parseAdd (ts.length * 10 + 10) ts with
    | some (e, []) => some e
    | _ => Option.none

/-- `dir(math)` without dunder names (the keys bound into `locals_` by
utils.py line 32). -/
def mathNames : List String :=
  ["acos", "acosh", "asin", "asinh", "atan", "atan2", "atanh", "ceil", "comb",
   "copysign", "cos", "cosh", "degrees", "dist", "e", "erf", "erfc", "exp",
   "expm1", "fabs", "factorial", "floor", "fmod", "frexp", "fsum", "gamma",
   "gcd", "hypot", "inf", "isclose", "isfinite", "isinf", "isnan", "isqrt",
   "lcm", "ldexp", "lgamma", "log", "log10", "log1p", "log2", "modf", "nan",
   "nextafter", "perm", "pi", "pow", "prod", "radians", "remainder", "sin",
   "sinh", "sqrt", "tan", "tanh", "tau", "trunc", "ulp"]

/-- The math-module bindings: functions become builtin-function objects, the
numeric constants become abstracted float constants (their numeric values
play no role in any property proved here). -/
def mathEntries : List (String × PyVal) :=
  mathNames.map (fun n =>
    (n, if n = "pi" ∨ n = "e" ∨ n = "tau" ∨ n = "inf" ∨ n = "nan"
        then vMathConst n else vBuiltin ("math." ++ n)))

/-- The whitelisted helper functions injected by utils.py lines 37-56. -/
def safe_builtins : List (String × PyVal) :=
  [("int", vBuiltin "int"), ("float", vBuiltin "float"), ("str", vBuiltin "str"),
   ("bin", vBuiltin "bin"), ("hex", vBuiltin "hex"), ("oct", vBuiltin "oct"),
   ("round", vBuiltin "round"), ("abs", vBuiltin "abs"), ("pow", vBuiltin "pow"),
   ("sum", vBuiltin "sum"), ("min", vBuiltin "min"), ("max", vBuiltin "max"),
   ("len", vBuiltin "len"), ("sorted", vBuiltin "sorted"),
   ("range", vBuiltin "range"), ("list", vBuiltin "list"),
   ("tuple", vBuiltin "tuple"), ("dict", vBuiltin "dict")]

/-- The `locals_` symbol table of `_eval_expr` (utils.py lines 31-81): math
names, then the coerced context variables, then the safe builtins, then
`select`/`case`; with `lookupLast` the rightmost binding wins, exactly
matching the successive dict updates of the source. -/
def buildLocals (context : Sample) : Sample :=
  mathEntries ++ context.map (fun p => (p.1, _to_number p.2)) ++ safe_builtins
    ++ [("select", vBuiltin "select"), ("case", vBuiltin "select")]

/-- Name resolution inside `eval(expr, globals_, locals_)`: locals first,
then the globals dict `{"__builtins__": {}}`; anything else is a
`NameError`. -/
def evalName (locals_ : Sample) (n : String) : Except Unit PyVal :=
  match lookupLast locals_ n with
  | some v => Except.ok v
  | Option.none =>
    if n = "__builtins__" then Except.ok (vDict []) else Except.error ()

/-- Attribute access.  Python restricts nothing here: `__class__` is
available on every object, and a type object exposes `__name__`.  Attributes
outside this reflective fragment are not modelled (treated as errors). -/
def pyGetAttr (v : PyVal) (field : String) : Except Unit PyVal :=
  if field = "__class__" then Except.ok (vType (typeName v))
  else
    match v with
    | vType t => if field = "__name__" then Except.ok (vStr t) else Except.error ()
    | _ => Except.error ()

/-- Int-like view: Python `bool` is a subclass of `int`. -/
def asIntNum : PyVal → Option Int
  | vInt n => some n
  | vBool b => some (if b then 1 else 0)
  | _ => Option.none

/-- Numeric view including floats (modelled as exact rationals). -/
def asRatNum : PyVal → Option Rat
  | vInt n => some (n : Rat)
  | vBool b => some (if b then 1 else 0)
  | vFloat q => some q
  | _ => Option.none

def listReplicate (n : Nat) (xs : List PyVal) : List PyVal :=
  match n with
  | 0 => []
  | m + 1 => xs ++ listReplicate m xs

def strReplicate (n : Nat) (s : String) : String :=
  match n with
  | 0 => ""
  | m + 1 => s ++ strReplicate m s

/-- Python's `+`, `-`, `*` on the modelled values: integer and float
arithmetic, sequence concatenation and repetition; other combinations are
`TypeError` (arithmetic on the abstracted math constants is outside the
model). -/
def pyBinop : BinOp → PyVal → PyVal → Except Unit PyVal
  | BinOp.add, a, b =>
    match asIntNum a, asIntNum b with
    | some x, some y => Except.ok (vInt (x + y))
    | _, _ =>
      match asRatNum a, asRatNum b with
      | some x, some y => Except.ok (vFloat (x + y))
      | _, _ =>
        match a, b with
        | vStr s, vStr t => Except.ok (vStr (s ++ t))
        | vList s, vList t => Except.ok (vList (s ++ t))
        | vTuple s, vTuple t => Except.ok (vTuple (s ++ t))
        | _, _ => Except.error ()
  | BinOp.sub, a, b =>
    match asIntNum a, asIntNum b with
    | some x, some y => Except.ok (vInt (x - y))
    | _, _ =>
      match asRatNum a, asRatNum b with
      | some x, some y => Except.ok (vFloat (x - y))
      | _, _ => Except.error ()
  | BinOp.mul, a, b =>
    match asIntNum a, asIntNum b with
    | some x, some y => Except.ok (vInt (x * y))
    | _, _ =>
      match asRatNum a, asRatNum b with
      | some x, some y => Except.ok (vFloat (x * y))
      | _, _ =>
        match a, b with
        | vStr s, vInt n => Except.ok (vStr (strReplicate n.toNat s))
        | vInt n, vStr s => Except.ok (vStr (strReplicate n.toNat s))
        | vList s, vInt n => Except.ok (vList (listReplicate n.toNat s))
        | vInt n, vList s => Except.ok (vList (listReplicate n.toNat s))
        | _, _ => Except.error ()

/-- Unary minus. -/
def pyNeg (a : PyVal) : Except Unit PyVal :=
  match asIntNum a with
  | some x => Except.ok (vInt (-x))
  | Option.none =>
    match a with
    | vFloat q => Except.ok (vFloat (-q))
    | _ => Except.error ()

/-- Evaluation of the modelled expression AST, mirroring CPython evaluation
under the symbol table built by `_eval_expr`. -/
def evalAst (e : PyExpr) (locals_ : Sample) : Except Unit PyVal :=
  match e with
  | PyExpr.name n => evalName locals_ n
  | PyExpr.numLit n => Except.ok (vInt n)
  | PyExpr.boolLit b => Except.ok (vBool b)
  | PyExpr.noneLit => Except.ok vNone
  | PyExpr.neg a => do pyNeg (← evalAst a locals_)
  | PyExpr.binop op a b => do
    let x ← evalAst a locals_
    let y ← evalAst b locals_
    pyBinop op x y
  | PyExpr.attr a f => do pyGetAttr (← evalAst a locals_) f

/-- `_eval_expr` (utils.py lines 27-88): evaluate the expression string in
the restricted environment; any exception (syntax error, `NameError`,
`TypeError`, ...) is caught and becomes `("<err>", True)`; success returns
`(value, False)` (the boolean is the source's *error* flag). -/
def _eval_expr (expr : String) (context : Sample) : PyVal × Bool :=
  match parseExprStr expr with
  | Option.none => (vStr "<err>", true)
  | some e =>
    match evalAst e (buildLocals context) with
    | Except.ok v => (v, false)
    | Except.error _ => (vStr "<err>", true)

/-- The spec's `evaluate(expression, context) -> (value, succeeded)`
contract (spec section 4.1), stated over the source's `_eval_expr`: same
value, with the source's error flag flipped into the spec's `succeeded`
polarity. -/
def spec_evaluate (expr : String) (context : Sample) : PyVal × Bool :=
  ((_eval_expr expr context).1, !(_eval_expr expr context).2)

-- ### Python str() (used by the renderer's substitutions)

/-- Decimal digits of the fractional part `n / d` (invariant `n < d`). -/
def fracDigits : Nat → Nat → Nat → List Char
  | 0, _, _ => []
  | _ + 1, 0, _ => []
  | f + 1, n, d => Char.ofNat (48 + n * 10 / d) :: fracDigits f (n * 10 % d) d

/-- Decimal rendering of a modelled float (CPython prints the shortest
round-tripping decimal; no claim proved here renders a non-trivial float). -/
def floatStr (q : Rat) : String :=
  let sgn := if q < 0 then "-" else ""
  let n := q.num.natAbs
  let d := q.den
  if n % d = 0 then sgn ++ toString (n / d) ++ ".0"
  else sgn ++ toString (n / d) ++ "." ++ String.mk (fracDigits 17 (n % d) d)

mutual

/-- Python `str(v)` for the modelled values (fuel-driven for nested
containers; the wrapper `pyStr` supplies ample fuel). -/
def pyStrF : Nat → PyVal → String
  | 0, _ => ""
  | f + 1, v =>
    match v with
    | vNone => "None"
    | vBool b => if b then "True" else "False"
    | vInt n => toString n
    | vFloat q => floatStr q
    | vStr s => s
    | vList xs => "[" ++ String.intercalate ", " (pyReprList f xs) ++ "]"
    | vTuple xs =>
      match xs with
      | [x] => "(" ++ pyReprF f x ++ ",)"
      | _ => "(" ++ String.intercalate ", " (pyReprList f xs) ++ ")"
    | vDict ps => "\x7b" ++ String.intercalate ", " (pyReprPairs f ps) ++ "\x7d"
    | vBuiltin n => "<built-in function " ++ n ++ ">"
    | vType t => "<class \x27" ++ t ++ "\x27>"
    | vMathConst n => "<abstracted math constant " ++ n ++ ">"

/-- Python `repr(v)`: differs from `str` only on strings (quoted; quote
escaping corner cases are outside the model). -/
def pyReprF : Nat → PyVal → String
  | 0, _ => ""
  | f + 1, v =>
    match v with
    | vStr s => "\x27" ++ s ++ "\x27"
    | _ => pyStrF f v

def pyReprList : Nat → List PyVal → List String
  | 0, _ => []
  | _ + 1, [] => []
  | f + 1, x :: xs => pyReprF f x :: pyReprList f xs

def pyReprPairs : Nat → List (PyVal × PyVal) → List String
  | 0, _ => []
  | _ + 1, [] => []
  | f + 1, p :: ps => (pyReprF f p.1 ++ ": " ++ pyReprF f p.2) :: pyReprPairs f ps

end

mutual

/-- Structural size of a modelled value, used to supply ample fuel to the
stringification functions. -/
def pyValSize : PyVal → Nat
  | vList xs => pyValListSize xs + 1
  | vTuple xs => pyValListSize xs + 1
  | vDict ps => pyValPairsSize ps + 1
  | _ => 1

def pyValListSize : List PyVal → Nat
  | [] => 0
  | x :: xs => pyValSize x + pyValListSize xs + 1

def pyValPairsSize : List (PyVal × PyVal) → Nat
  | [] => 0
  | p :: ps => pyValSize p.1 + pyValSize p.2 + pyValPairsSize ps + 1

end

/-- Python `str(v)`. -/
def pyStr (v : PyVal) : String := pyStrF (3 * pyValSize v + 3) v

-- ### Text formatter (`format_text`, utils.py lines 200-230)

/-- Split off a `cc`-delimited body: the (greedy, hence maximal `c`-free)
body must be nonempty and be followed immediately by the two closing marker
characters; returns the body and the remainder after the closing pair. -/
def splitMarker (c : Char) (rest : List Char) : Option (List Char × List Char) :=
  let body := rest.takeWhile (fun d => d ≠ c)
  match rest.dropWhile (fun d => d ≠ c) with
  | a :: b :: t => if body ≠ [] ∧ a = c ∧ b = c then some (body, t) else Option.none
  | _ => Option.none

/-- One `re.sub` pass for a doubled-marker pattern such as `~~([^~]+)~~`:
scan left to right; at each occurrence of the doubled marker try to complete
a match, otherwise advance one character, exactly as the regex engine
retries at the next start position.  Fuel-driven; callers pass more fuel
than the input length. -/
def subDouble (c : Char) (l r : String) : Nat → List Char → List Char
  | 0, s => s
  | _ + 1, [] => []
  | _ + 1, [x] => [x]
  | fuel + 1, x :: y :: rest =>
    if x = c ∧ y = c then
      match splitMarker c rest with
      | some (body, after) => l.data ++ body ++ r.data ++ subDouble c l r fuel after
      | Option.none => x :: subDouble c l r fuel (y :: rest)
    else x :: subDouble c l r fuel (y :: rest)

/-- Split off the body of a single-marker match `c(?!c)body c(?!c)`: the
body is the maximal nonempty `c`-free run, the closing marker must not be
followed by another `c`. -/
def splitSingle (c : Char) (rest : List Char) : Option (List Char × List Char) :=
  let body := rest.takeWhile (fun d => d ≠ c)
  match rest.dropWhile (fun d => d ≠ c) with
  | a :: t => if body ≠ [] ∧ a = c ∧ t.head? ≠ some c then some (body, t) else Option.none
  | [] => Option.none

/-- One `re.sub` pass for the italic patterns
`(?<!c)c(?!c)([^c]+?)c(?!c)`; `prev` carries the character before the
current scan position (for the negative lookbehind), starting as `none` at
the beginning of the string and set to the closing marker after a match. -/
def subSingle (c : Char) (l r : String) : Nat → Option Char → List Char → List Char
  | 0, _, s => s
  | _ + 1, _, [] => []
  | fuel + 1, prev, x :: rest =>
    if x = c ∧ prev ≠ some c ∧ rest.head? ≠ some c then
      match splitSingle c rest with
      | some (body, after) =>
        l.data ++ body ++ r.data ++ subSingle c l r fuel (some c) after
      | Option.none => x :: subSingle c l r fuel (some x) rest
    else x :: subSingle c l r fuel (some x) rest

/-- A doubled-marker pass applied with ample fuel. -/
def subDoubleP (c : Char) (l r : String) (s : List Char) : List Char :=
  subDouble c l r (s.length + 1) s

/-- A single-marker pass applied with ample fuel (scan starts with no
previous character). -/
def subSingleP (c : Char) (l r : String) (s : List Char) : List Char :=
  subSingle c l r (s.length + 1) Option.none s

/-- `format_text` (utils.py lines 200-230): empty input returns unchanged;
otherwise the six substitution passes run in the source's order —
strikethrough, highlight, bold (`**` then `__`), italic (`*` then `_`). -/
def format_text (text : String) : String :=
  if text = "" then text
  else
    String.mk
      (subSingleP '_' "<em>" "</em>"
        (subSingleP '*' "<em>" "</em>"
          (subDoubleP '_' "<strong>" "</strong>"
            (subDoubleP '*' "<strong>" "</strong>"
              (subDoubleP '=' "<mark>" "</mark>"
                (subDoubleP '~' "<s>" "</s>" text.data))))))

-- ### Template renderer (`render_with_sample`, utils.py lines 233-256)

/-- Body search for the token regex `\x7b\x7b(.*?)\x7d\x7d` starting right
after an opening `\x7b\x7b`: the non-greedy body runs to the first closing
pair and cannot cross a newline (`.` does not match `\n`). -/
def findBody : List Char → Option (List Char × List Char)
  | '\x7d' :: '\x7d' :: rest => some ([], rest)
  | '\x0a' :: _ => Option.none
  | c :: rest => (findBody rest).map (fun p => (c :: p.1, p.2))
  | [] => Option.none

/-- First match of the token regex in the input: returns the text before
the match, the captured body, and the remainder after the match.  On a
failed match attempt the engine retries from the next character. -/
def findToken : Nat → List Char → Option (List Char × List Char × List Char)
  | 0, _ => Option.none
  | _ + 1, [] => Option.none
  | fuel + 1, '\x7b' :: '\x7b' :: rest =>
    (match findBody rest with
     | some (body, rest') => some ([], body, rest')
     | Option.none =>
       (findToken fuel ('\x7b' :: rest)).map (fun t => ('\x7b' :: t.1, t.2.1, t.2.2)))
  | fuel + 1, c :: rest =>
    (findToken fuel rest).map (fun t => (c :: t.1, t.2.1, t.2.2))

/-- `re.sub` with a replacement callback: rewrite every non-overlapping
match left to right. -/
def reSub (f : List Char → List Char) : Nat → List Char → List Char
  | 0, s => s
  | fuel + 1, s =>
    match findToken (s.length + 1) s with
    | Option.none => s
    | some (pre, body, rest) => pre ++ f body ++ reSub f fuel rest

/-- The `repl` callback of `render_with_sample` (utils.py lines 243-252):
strip the captured body; an exact sample key substitutes its `str()`;
otherwise evaluate as an expression, substituting the stringified value on
success and re-wrapping the stripped token in braces on failure. -/
def repl (sample : Sample) (body : List Char) : List Char :=
  let token := (pyStrip (String.mk body))
  match lookupLast sample token with
  | some v => (pyStr v).data
  | Option.none =>
    if (_eval_expr token sample).2 then
      ("\x7b\x7b" ++ token ++ "\x7d\x7d").data
    else (pyStr (_eval_expr token sample).1).data

/-- `render_with_sample` (utils.py lines 233-256): substitute every
`\x7b\x7b...\x7d\x7d` token via `repl`, then apply the formatter. -/
def render_with_sample (text : String) (sample : Sample) : String :=
  format_text (String.mk (reSub (repl sample) (text.data.length + 1) text.data))

/-- Substring test (Python's `in` on strings). -/
def hasSub (sub : List Char) : List Char → Bool
  | [] => sub.isEmpty
  | s@(_ :: rest) => sub.isPrefixOf s || hasSub sub rest

/-- `evaluate_expression` (utils.py lines 259-276): empty expression returns
`""`; an expression containing both `\x7b\x7b` and `\x7d\x7d` is rendered as
a template; otherwise it is evaluated directly, returning the stringified
value on success and the original expression text on failure. -/
def evaluate_expression (expr : String) (sample : Sample) : String :=
  if expr = "" then ""
  else if hasSub "\x7b\x7b".data expr.data && hasSub "\x7d\x7d".data expr.data then
    render_with_sample expr sample
  else
    if (_eval_expr expr sample).2 then expr else pyStr (_eval_expr expr sample).1

-- ### Random source model and the generators (utils.py lines 91-197)

/-- Oracle stream standing for Python's global random source. -/
abbrev RNG := List Nat

def nextNat (r : RNG) : Nat × RNG :=
  match r with
  | [] => (0, [])
  | n :: rest => (n, rest)

/-- `random.randint(a, b)`: an integer in `[a, b]` (the oracle draw is
mapped into the range, so over all streams every such integer occurs);
raises `ValueError` when `a > b`. -/
def randint (a b : Int) (r : RNG) : Except Unit Int × RNG :=
  if a ≤ b then (Except.ok (a + ((nextNat r).1 : Int) % (b - a + 1)), (nextNat r).2)
  else (Except.error (), (nextNat r).2)

/-- `random.choice(xs)`: an arbitrary element of `xs`; raises `IndexError`
on an empty list. -/
def pyChoice (xs : List PyVal) (r : RNG) : Except Unit PyVal × RNG :=
  match xs with
  | [] => (Except.error (), (nextNat r).2)
  | x :: rest =>
    (Except.ok ((x :: rest).get
       ⟨(nextNat r).1 % (x :: rest).length, Nat.mod_lt _ (Nat.succ_pos _)⟩),
     (nextNat r).2)

/-- The `rule_data` payload dict of a variable rule; absent keys are
`Option.none`, with the source's `.get` defaults applied at each use site.
A variable definition whose `rule_data` key is missing behaves exactly like
one with an empty payload dict (every access goes through `.get` or is
guarded by the type dispatch), so `rule_data` is modelled as always
present. -/
structure RuleData where
  type : Option String := Option.none
  min : Option PyVal := Option.none
  max : Option PyVal := Option.none
  step : Option PyVal := Option.none
  choices : Option (List PyVal) := Option.none
  expression : Option String := Option.none
  description : Option String := Option.none

/-- A variable definition (`var_def` in the source). -/
structure VarDef where
  rule_data : RuleData := {}

/-- Decimal integer parse for Python's `int(str)` (base 10: sign plus
digits; leading zeros are allowed in base 10). -/
def parseIntBase10 (s : List Char) : Option Int :=
  match s with
  | '+' :: ds =>
    if ds ≠ [] ∧ ds.all Char.isDigit then some (digitsVal 10 ds : Int) else Option.none
  | '-' :: ds =>
    if ds ≠ [] ∧ ds.all Char.isDigit then some (-(digitsVal 10 ds : Int)) else Option.none
  | ds =>
    if ds ≠ [] ∧ ds.all Char.isDigit then some (digitsVal 10 ds : Int) else Option.none

/-- Python `int(x)` as applied to the `min`/`max`/`step` payloads: ints and
bools pass through, floats truncate toward zero, strings parse as stripped
base-10 integers; anything else raises. -/
def pyIntOf : PyVal → Except Unit Int
  | vInt n => Except.ok n
  | vBool b => Except.ok (if b then 1 else 0)
  | vFloat q => Except.ok (q.num.tdiv (q.den : Int))
  | vStr s =>
    (match parseIntBase10 (pyStrip s).data with
     | some n => Except.ok n
     | Option.none => Except.error ())
  | _ => Except.error ()

/-- Python `list(range(mn, mx + 1, st))` for the stepped branch (`st ≥ 2`
at the call site). -/
def rangeStep (mn mx st : Int) : List Int :=
  if mn ≤ mx ∧ 0 < st then
    (List.range (((mx - mn) / st).toNat + 1)).map (fun k : Nat => mn + st * (k : Int))
  else []

/-- `generate_value` (utils.py lines 91-135): dispatch on
`rule_data.get("type", "custom")`; every exception inside the body is caught
by the surrounding `try` and becomes the sentinel `"<err>"`. -/
def generate_value (var_name : String) (var_def : VarDef) (current : Sample) (r : RNG) :
    PyVal × RNG :=
  let rd := var_def.rule_data
  let t := rd.type.getD "custom"
  if t = "random_number" then
    match pyIntOf (rd.min.getD (vInt 1)), pyIntOf (rd.max.getD (vInt 10)),
        pyIntOf (rd.step.getD (vInt 1)) with
    | Except.ok mn, Except.ok mx, Except.ok st =>
      if st ≤ 1 then
        match randint mn mx r with
        | (Except.ok v, r') => (vInt v, r')
        | (Except.error _, r') => (vStr "<err>", r')
      else
        (match (rangeStep mn mx st).map vInt with
         | [] =>
           match randint mn mx r with
           | (Except.ok v, r') => (vInt v, r')
           | (Except.error _, r') => (vStr "<err>", r')
         | c :: cs =>
           match pyChoice (c :: cs) r with
           | (Except.ok v, r') => (v, r')
           | (Except.error _, r') => (vStr "<err>", r'))
    | _, _, _ => (vStr "<err>", r)
  else if t = "random_choice" then
    match rd.choices.getD [] with
    | [] => (vStr "", r)
    | c :: cs =>
      match pyChoice (c :: cs) r with
      | (Except.ok v, r') => (v, r')
      | (Except.error _, r') => (vStr "<err>", r')
  else if t = "math_expression" then
    let expr := rd.expression.getD ""
    if (_eval_expr expr current).2 then (vStr "<err>", r)
    else ((_eval_expr expr current).1, r)
  else if t = "custom" then
    let desc := rd.description.getD ""
    if hasSub "\x7b\x7b".data desc.data && hasSub "\x7d\x7d".data desc.data then
      (vStr (render_with_sample desc current), r)
    else if (_eval_expr desc current).2 then (vStr desc, r)
    else ((_eval_expr desc current).1, r)
  else (vStr (rd.description.getD ""), r)

/-- One pass of `generate_sample`'s retry loop (utils.py lines 141-148):
skip variables already resolved; discard values equal to `"<err>"`; store
everything else. -/
def passVars : List (String × VarDef) → Sample → RNG → Sample × RNG
  | [], s, r => (s, r)
  | (name, vdef) :: rest, s, r =>
    if (lookupLast s name).isSome then passVars rest s r
    else
      let vr := generate_value name vdef s r
      if isErrSentinel vr.1 then passVars rest s vr.2
      else passVars rest (s ++ [(name, vr.1)]) vr.2

/-- The fixed retry loop (`for _ in range(5)`). -/
def runPasses : Nat → List (String × VarDef) → Sample → RNG → Sample × RNG
  | 0, _, s, r => (s, r)
  | n + 1, vars, s, r =>
    runPasses n vars (passVars vars s r).1 (passVars vars s r).2

/-- The `setdefault` loop (utils.py lines 149-150): every still-missing
variable is set to `"?"`. -/
def fillMissing : List (String × VarDef) → Sample → Sample
  | [], s => s
  | (name, _) :: rest, s =>
    fillMissing rest (if (lookupLast s name).isSome then s else s ++ [(name, vStr "?")])

/-- `generate_sample` (utils.py lines 138-151). -/
def generate_sample (vars : List (String × VarDef)) (r : RNG) : Sample × RNG :=
  (fillMissing vars (runPasses 5 vars [] r).1, (runPasses 5 vars [] r).2)

/-- The partition test of `generate_all_combinations` (utils.py line 166):
`vdef.get("rule_data", \x7b\x7d).get("type") == "random_choice"` (note: no
`"custom"` default here). -/
def isChoiceVar (vdef : VarDef) : Bool := vdef.rule_data.type == some "random_choice"

/-- `itertools.product(*lists)`: the first list varies slowest. -/
def cartesianProduct : List (List PyVal) → List (List PyVal)
  | [] => [[]]
  | xs :: rest => (xs.map (fun x => (cartesianProduct rest).map (fun c => x :: c))).flatten

/-- The inner loop over non-choice variables (utils.py lines 188-193): a
single `generate_value` attempt against the partial sample; `"<err>"` is
replaced by `"?"`, and a value is stored for every variable. -/
def otherLoop : List (String × VarDef) → Sample → RNG → Sample × RNG
  | [], s, r => (s, r)
  | (name, vdef) :: rest, s, r =>
    let vr := generate_value name vdef s r
    otherLoop rest (s ++ [(name, if isErrSentinel vr.1 then vStr "?" else vr.1)]) vr.2

/-- The loop over all combinations (utils.py lines 181-195). -/
def combosLoop (choice_names : List String) (other_vars : List (String × VarDef)) :
    List (List PyVal) → RNG → List Sample × RNG
  | [], r => ([], r)
  | combo :: rest, r =>
    let sr := otherLoop other_vars (choice_names.zip combo) r
    ((sr.1 :: (combosLoop choice_names other_vars rest sr.2).1),
     (combosLoop choice_names other_vars rest sr.2).2)

/-- `generate_all_combinations` (utils.py lines 154-197). -/
def generate_all_combinations (vars : List (String × VarDef)) (r : RNG) :
    List Sample × RNG :=
  match vars.filter (fun p => isChoiceVar p.2) with
  | [] => ([(generate_sample vars r).1], (generate_sample vars r).2)
  | q :: qs =>
    combosLoop ((q :: qs).map Prod.fst)
      (vars.filter (fun p => !(isChoiceVar p.2)))
      (cartesianProduct ((q :: qs).map (fun p => p.2.rule_data.choices.getD []))) r

-- ### Behaviour of the exposed operations on None inputs

/-- `format_text` on a possibly-`None` argument: `if not text: return text`
returns `None` unchanged before any regex runs. -/
def format_textN : Option String → Option String
  | Option.none => Option.none
  | some t => some (format_text t)

/-- `render_with_sample` on possibly-`None` arguments.  `re.sub` raises
`TypeError` on a `None` template; with a `None` sample the replacement
callback raises `TypeError` (`token in None`) as soon as a token matches,
while a template without any token match never invokes the callback. -/
def render_with_sampleN : Option String → Option Sample → Except String String
  | Option.none, _ => Except.error "TypeError"
  | some t, some s => Except.ok (render_with_sample t s)
  | some t, Option.none =>
    if (findToken (t.data.length + 1) t.data).isSome then Except.error "TypeError"
    else Except.ok (format_text t)

/-- `evaluate_expression` on possibly-`None` arguments: a falsy expression
returns `""` before the sample is touched; otherwise a `None` sample either
flows into the renderer or reaches `_eval_expr`, whose `context.items()`
loop sits outside the `try` block and raises `AttributeError`. -/
def evaluate_expressionN : Option String → Option Sample → Except String String
  | Option.none, _ => Except.ok ""
  | some e, some s => Except.ok (evaluate_expression e s)
  | some e, Option.none =>
    if e = "" then Except.ok ""
    else if hasSub "\x7b\x7b".data e.data && hasSub "\x7d\x7d".data e.data then
      render_with_sampleN (some e) Option.none
    else Except.error "AttributeError"

/-- `generate_sample(None)` raises `AttributeError` on `variables.items()`. -/
def generate_sampleN : Option (List (String × VarDef)) → RNG → Except String (Sample × RNG)
  | Option.none, _ => Except.error "AttributeError"
  | some vars, r => Except.ok (generate_sample vars r)

/-- `generate_all_combinations(None)` raises `AttributeError` on
`variables.items()`. -/
def generate_all_combinationsN :
    Option (List (String × VarDef)) → RNG → Except String (List Sample × RNG)
  | Option.none, _ => Except.error "AttributeError"
  | some vars, r => Except.ok (generate_all_combinations vars r)

-- ### Association-list lemmas

theorem string_data_mk (l : List Char) : (String.mk l).data = l := rfl

theorem lookupLast_eq_none_iff (k : String) :
    ∀ s : Sample, lookupLast s k = Option.none ↔ k ∉ s.map Prod.fst := by
  intro s
  induction s with
  | nil => simp [lookupLast]
  | cons p rest ih =>
    obtain ⟨k', v⟩ := p
    simp only [lookupLast, List.map_cons, List.mem_cons]
    cases h : lookupLast rest k with
    | none =>
      have hni : k ∉ rest.map Prod.fst := ih.mp h
      by_cases hpk : k' = k
      · subst hpk
        simp
      · rw [if_neg hpk]
        constructor
        · intro _
          rintro (he | hin)
          · exact hpk he.symm
          · exact hni hin
        · intro _
          rfl
    | some w =>
      have hin : k ∈ rest.map Prod.fst := by
        by_contra hc
        rw [ih.mpr hc] at h
        cases h
      constructor
      · intro hx
        exact Option.noConfusion hx
      · intro hx
        exact absurd (Or.inr hin) hx

theorem lookupLast_append_last (s : Sample) (k : String) (v : PyVal) :
    lookupLast (s ++ [(k, v)]) k = some v := by
  induction s with
  | nil => simp [lookupLast]
  | cons p rest ih =>
    obtain ⟨k', w⟩ := p
    rw [List.cons_append]
    show (match lookupLast (rest ++ [(k, v)]) k with
          | some w => some w
          | Option.none => if k' = k then some w else Option.none) = some v
    rw [ih]

theorem lookupLast_append_ne (k m : String) (v : PyVal) (h : m ≠ k) :
    ∀ s : Sample, lookupLast (s ++ [(m, v)]) k = lookupLast s k := by
  intro s
  induction s with
  | nil => simp [lookupLast, h]
  | cons p rest ih =>
    obtain ⟨k', w⟩ := p
    rw [List.cons_append]
    show (match lookupLast (rest ++ [(m, v)]) k with
          | some w => some w
          | Option.none => if k' = k then some w else Option.none) =
         (match lookupLast rest k with
          | some w => some w
          | Option.none => if k' = k then some w else Option.none)
    rw [ih]

-- ### Unfolding lemmas for `_eval_expr`

theorem _eval_expr_parse_none (expr : String) (context : Sample)
    (hp : parseExprStr expr = Option.none) :
    _eval_expr expr context = (vStr "<err>", true) := by
  unfold _eval_expr
  rw [hp]

theorem _eval_expr_parse_some (expr : String) (context : Sample) (e : PyExpr)
    (hp : parseExprStr expr = some e) :
    _eval_expr expr context =
      (match evalAst e (buildLocals context) with
       | Except.ok v => (v, false)
       | Except.error _ => (vStr "<err>", true)) := by
  unfold _eval_expr
  rw [hp]

-- ### Claim theorems: expression evaluator

/-- Claim C2: `_eval_expr` is a total function into value-flag pairs (no
exception reaches the caller; the source's `try` around `eval` is the only
place one could arise and it is caught).  Under the spec's `succeeded`
polarity, every failure — syntax error, unknown name, type error — returns
exactly `("<err>", false)`, and every success returns the computed value of
the parsed expression paired with `true`. -/
theorem c2_eval_total (expr : String) (context : Sample) :
    spec_evaluate expr context = (vStr "<err>", false) ∨
    ∃ e v, parseExprStr expr = some e ∧ evalAst e (buildLocals context) = Except.ok v ∧
      spec_evaluate expr context = (v, true) := by
  cases hp : parseExprStr expr with
  | none =>
    left
    unfold spec_evaluate
    rw [_eval_expr_parse_none expr context hp]
    rfl
  | some e =>
    cases he : evalAst e (buildLocals context) with
    | error u =>
      left
      unfold spec_evaluate
      rw [_eval_expr_parse_some expr context e hp, he]
      rfl
    | ok v =>
      right
      refine ⟨e, v, rfl, he, ?_⟩
      unfold spec_evaluate
      rw [_eval_expr_parse_some expr context e hp, he]
      rfl

/-- Claim C1 counterexample: the sandbox is only a deny-list of builtins;
attribute access is unrestricted, so the reflective expression
`(1).__class__` reaches a type object of the host runtime and evaluation
succeeds instead of returning `("<err>", false)`. -/
theorem c1_sandbox_counterexample :
    spec_evaluate "(1).__class__" [] = (vType "int", true) ∧
    spec_evaluate "(1).__class__" [] ≠ (vStr "<err>", false) := by
  refine ⟨rfl, ?_⟩
  intro h
  have h2 : true = false := congrArg Prod.snd h
  exact Bool.noConfusion h2

-- ### Tokenizer/parser lemmas for the amended sandbox claim

theorem takeWhile_all_eq {p : Char → Bool} :
    ∀ cs : List Char, cs.all p = true → cs.takeWhile p = cs ∧ cs.dropWhile p = [] := by
  intro cs h
  induction cs with
  | nil => exact ⟨rfl, rfl⟩
  | cons c cs ih =>
    rw [List.all_cons, Bool.and_eq_true] at h
    obtain ⟨ht, hd⟩ := ih h.2
    refine ⟨?_, ?_⟩
    · rw [List.takeWhile_cons, if_pos h.1, ht]
    · rw [List.dropWhile_cons, if_pos h.1, hd]

/-- A nonempty identifier-shaped character list. -/
def isIdentList : List Char → Bool
  | [] => false
  | c :: cs => identStartChar c && cs.all identChar

theorem tokenize_pure_ident (c : Char) (cs : List Char)
    (h1 : identStartChar c = true) (h2 : cs.all identChar = true) :
    tokenize ((c :: cs).length + 1) (c :: cs) = some [Tok.id (String.mk (c :: cs))] := by
  have hsp : ¬ (c = ' ' ∨ c = '\t') := by
    rintro (rfl | rfl) <;> exact absurd h1 (by decide)
  obtain ⟨htw, hdw⟩ := takeWhile_all_eq cs h2
  rw [List.length_cons]
  simp only [tokenize]
  rw [if_neg hsp, if_pos h1, htw, hdw]
  simp only [tokenize]
  rfl

theorem parseExprStr_of_tokens (n : String) (ts : List Tok)
    (htok : tokenize (n.data.length + 1) n.data = some ts) :
    parseExprStr n =
      (match parseAdd (ts.length * 10 + 10) ts with
       | some (e, []) => some e
       | _ => Option.none) := by
  unfold parseExprStr
  rw [htok]

theorem parseAtom_plain_name (f : Nat) (s : String) (ts : List Tok)
    (hT : s ≠ "True") (hF : s ≠ "False") (hN : s ≠ "None") (hD : s ≠ "__debug__") :
    parseAtom (f + 1) (Tok.id s :: ts) = some (PyExpr.name s, ts) := by
  simp only [parseAtom]
  rw [if_neg hT, if_neg hF, if_neg hN, if_neg hD]

theorem parseAdd_plain_name (s : String)
    (hT : s ≠ "True") (hF : s ≠ "False") (hN : s ≠ "None") (hD : s ≠ "__debug__") :
    parseAdd 20 [Tok.id s] = some (PyExpr.name s, []) := by
  have h1 : parseAtom 16 [Tok.id s] = some (PyExpr.name s, []) :=
    parseAtom_plain_name 15 s [] hT hF hN hD
  rw [show parseAdd 20 [Tok.id s] =
      Option.bind
        (Option.bind
          (Option.bind (parseAtom 16 [Tok.id s])
            (fun p => parsePostRest 16 p.1 p.2))
          (fun p => parseMulRest 18 p.1 p.2))
        (fun p => parseAddRest 19 p.1 p.2) from rfl]
  rw [h1]
  rfl

theorem parseExprStr_pure_ident (n : String) (h : isIdentList n.data = true)
    (hT : n ≠ "True") (hF : n ≠ "False") (hN : n ≠ "None") (hD : n ≠ "__debug__") :
    parseExprStr n = some (PyExpr.name n) := by
  obtain ⟨l⟩ := n
  match l, h, hT, hF, hN, hD with
  | c :: cs, h, hT, hF, hN, hD =>
    have h' : identStartChar c = true ∧ cs.all identChar = true := by
      simpa [isIdentList, Bool.and_eq_true] using h
    have htok : tokenize ((String.mk (c :: cs)).data.length + 1)
        (String.mk (c :: cs)).data = some [Tok.id (String.mk (c :: cs))] := by
      rw [string_data_mk]
      exact tokenize_pure_ident c cs h'.1 h'.2
    rw [parseExprStr_of_tokens _ _ htok]
    have hfuel : ([Tok.id (String.mk (c :: cs))] : List Tok).length * 10 + 10 = 20 := rfl
    rw [hfuel, parseAdd_plain_name (String.mk (c :: cs)) hT hF hN hD]

theorem evalName_not_found (L : Sample) (n : String) (h1 : lookupLast L n = Option.none)
    (h2 : n ≠ "__builtins__") : evalName L n = Except.error () := by
  unfold evalName
  rw [h1]
  exact if_neg h2

/-- Claim C1 (amended): builtins are emptied, so evaluating any identifier
that is not one of CPython's compile-time constants (`True`, `False`,
`None`, `__debug__`), is distinct from the `__builtins__` globals entry,
and is not bound in the whitelist table fails with `("<err>", false)` — in
particular `__import__`, `open` and `os` are unreachable, and `import os`
is a syntax error in expression position; the keyword constants evaluate
successfully even with empty builtins; and attribute access is not
restricted, so reflective expressions such as `(2).__class__.__name__`
evaluate successfully. -/
theorem c1_sandbox_amended :
    (∀ (n : String) (context : Sample),
       isIdentList n.data = true →
       n ≠ "True" → n ≠ "False" → n ≠ "None" → n ≠ "__debug__" →
       n ≠ "__builtins__" →
       lookupLast (buildLocals context) n = Option.none →
       spec_evaluate n context = (vStr "<err>", false)) ∧
    (∀ context : Sample, spec_evaluate "import os" context = (vStr "<err>", false)) ∧
    spec_evaluate "True" [] = (vBool true, true) ∧
    spec_evaluate "None" [] = (vNone, true) ∧
    spec_evaluate "(2).__class__.__name__" [] = (vStr "int", true) := by
  refine ⟨?_, fun context => rfl, rfl, rfl, rfl⟩
  intro n context hid hT hF hN hD hnb hlk
  have he : evalAst (PyExpr.name n) (buildLocals context) = Except.error () :=
    evalName_not_found (buildLocals context) n hlk hnb
  unfold spec_evaluate
  rw [_eval_expr_parse_some n context (PyExpr.name n)
    (parseExprStr_pure_ident n hid hT hF hN hD), he]
  rfl

/-- Witness for the amended C1 at `__import__` with the empty context. -/
theorem c1_sandbox_amended_witness :
    isIdentList ("__import__" : String).data = true ∧
    lookupLast (buildLocals []) "__import__" = Option.none ∧
    spec_evaluate "__import__" [] = (vStr "<err>", false) :=
  ⟨rfl, rfl, c1_sandbox_amended.1 "__import__" [] rfl (by decide) (by decide)
    (by decide) (by decide) (by decide) rfl⟩

-- ### Claim theorem: value coercion

/-- Python number test (`isinstance(v, (int, float))`; `bool` is a subclass
of `int`). -/
def isPyNumber : PyVal → Bool
  | vInt _ => true
  | vFloat _ => true
  | vBool _ => true
  | _ => false

/-- Python string test (`isinstance(v, str)`). -/
def isPyStr : PyVal → Bool
  | vStr _ => true
  | _ => false

/-- Claim C10: `_to_number` maps every value that is neither a number nor a
string to `None` (the Python function body falls through without a
`return`), and consequently such a context entry — e.g. a list — is bound
as `None` inside the evaluator: looking the variable up in an expression
yields `None`, not the original value. -/
theorem c10_to_number_none :
    (∀ v : PyVal, isPyNumber v = false → isPyStr v = false → _to_number v = vNone) ∧
    (∀ xs : List PyVal, spec_evaluate "x" [("x", vList xs)] = (vNone, true)) := by
  constructor
  · intro v h1 h2
    cases v with
    | vInt n => exact Bool.noConfusion h1
    | vFloat q => exact Bool.noConfusion h1
    | vBool b => exact Bool.noConfusion h1
    | vStr s => exact Bool.noConfusion h2
    | vNone => rfl
    | vList xs => rfl
    | vTuple xs => rfl
    | vDict ps => rfl
    | vBuiltin b => rfl
    | vType t => rfl
    | vMathConst m => rfl
  · intro xs
    rfl

/-- Witness for C10 at a list value. -/
theorem c10_to_number_none_witness :
    isPyNumber (vList [vInt 1]) = false ∧ isPyStr (vList [vInt 1]) = false ∧
    _to_number (vList [vInt 1]) = vNone :=
  ⟨rfl, rfl, c10_to_number_none.1 (vList [vInt 1]) rfl rfl⟩

-- ### Claim theorems: renderer (C4, C5)

/-- Claim C4 counterexample: the re-wrapped token does not always reappear
verbatim in the rendered output, because the formatter post-pass also runs
over re-emitted tokens: the unresolved token `a*b*c` comes out of the
substitution pass as `\x7b\x7ba*b*c\x7d\x7d`, whose single stars the
italic pass then rewrites, so the final output is
`\x7b\x7ba<em>b</em>c\x7d\x7d`, not the original token text. -/
theorem c4_unresolved_token_counterexample :
    render_with_sample "\x7b\x7ba*b*c\x7d\x7d" [] =
      "\x7b\x7ba<em>b</em>c\x7d\x7d" ∧
    render_with_sample "\x7b\x7ba*b*c\x7d\x7d" [] ≠ "\x7b\x7ba*b*c\x7d\x7d" :=
  ⟨rfl, by decide⟩

/-- Claim C4 (amended): every token whose stripped body is neither an exact
sample key nor a successfully evaluable expression is substituted by the
stripped token re-wrapped in double braces during the substitution pass;
the formatter post-pass may further rewrite markdown markers inside that
re-emitted text, so the `\x7b\x7btoken\x7d\x7d` text reaches the final
output verbatim only when the formatter leaves it unchanged — as it does
for the spec's example, which renders unchanged. -/
theorem c4_unresolved_token :
    (∀ (sample : Sample) (body : List Char),
       lookupLast sample (pyStrip (String.mk body)) = Option.none →
       (_eval_expr (pyStrip (String.mk body)) sample).2 = true →
       repl sample body = ("\x7b\x7b" ++ (pyStrip (String.mk body)) ++ "\x7d\x7d").data) ∧
    render_with_sample "Value: \x7b\x7bundefined_var\x7d\x7d" [] =
      "Value: \x7b\x7bundefined_var\x7d\x7d" := by
  refine ⟨?_, rfl⟩
  intro sample body h1 h2
  simp [repl, h1, h2]

/-- Witness for C4 at the token `undefined_var` with the empty sample. -/
theorem c4_unresolved_token_witness :
    lookupLast [] (pyStrip (String.mk "undefined_var".data)) = Option.none ∧
    (_eval_expr (pyStrip (String.mk "undefined_var".data)) []).2 = true ∧
    repl [] "undefined_var".data =
      ("\x7b\x7b" ++ (pyStrip (String.mk "undefined_var".data)) ++ "\x7d\x7d").data :=
  ⟨rfl, rfl, c4_unresolved_token.1 [] "undefined_var".data rfl rfl⟩

/-- Claim C5: a token whose stripped body is an exact sample key is
replaced by the `str()` of its value; any other token is evaluated as an
expression against the sample, substituting the stringified result on
success; the formatter is applied to the whole string after all
substitutions (third conjunct, definitional); and the spec's three
examples рender as claimed. -/
theorem c5_render_substitution :
    (∀ (sample : Sample) (body : List Char) (v : PyVal),
       lookupLast sample (pyStrip (String.mk body)) = some v →
       repl sample body = (pyStr v).data) ∧
    (∀ (sample : Sample) (body : List Char),
       lookupLast sample (pyStrip (String.mk body)) = Option.none →
       (_eval_expr (pyStrip (String.mk body)) sample).2 = false →
       repl sample body = (pyStr (_eval_expr (pyStrip (String.mk body)) sample).1).data) ∧
    (∀ (text : String) (sample : Sample),
       render_with_sample text sample =
         format_text (String.mk (reSub (repl sample) (text.data.length + 1) text.data))) ∧
    render_with_sample "\x7b\x7ba\x7d\x7d + 1" [("a", vInt 5)] = "5 + 1" ∧
    render_with_sample "\x7b\x7b a * 2 \x7d\x7d" [("a", vInt 5)] = "10" ∧
    render_with_sample "**\x7b\x7ba\x7d\x7d**" [("a", vInt 5)] = "<strong>5</strong>" := by
  refine ⟨?_, ?_, fun text sample => rfl, rfl, rfl, rfl⟩
  · intro sample body v h
    simp [repl, h]
  · intro sample body h1 h2
    simp [repl, h1, h2]

/-- Witness for C5 at the exact-key token `a` with sample `a = 5`. -/
theorem c5_render_substitution_witness :
    lookupLast [("a", vInt 5)] (pyStrip (String.mk "a".data)) = some (vInt 5) ∧
    repl [("a", vInt 5)] "a".data = (pyStr (vInt 5)).data :=
  ⟨rfl, c5_render_substitution.1 [("a", vInt 5)] "a".data (vInt 5) rfl⟩

-- ### Claim theorems: totality / null handling (C3)

/-- Claim C3 counterexample: with a `None` sample, rendering a template
containing a matching token raises `TypeError` (`token in None` inside the
replacement callback), a `None` template makes `re.sub` raise `TypeError`,
a `None` variables mapping makes `generate_sample` raise `AttributeError`
on `variables.items()`, and a non-template expression with a `None` sample
makes `evaluate_expression` raise `AttributeError` inside `_eval_expr`
(whose `context.items()` loop is outside the `try`).  So null inputs are
not tolerated and exceptions do escape. -/
theorem c3_null_counterexample :
    render_with_sampleN (some "Value: \x7b\x7bx\x7d\x7d") Option.none =
      Except.error "TypeError" ∧
    render_with_sampleN Option.none (some []) = Except.error "TypeError" ∧
    generate_sampleN Option.none [] = Except.error "AttributeError" ∧
    evaluate_expressionN (some "x") Option.none = Except.error "AttributeError" :=
  ⟨rfl, rfl, rfl, rfl⟩

/-- Claim C3 (amended): every core operation is total on non-null inputs —
each is a pure function into plain data with all internal failures degraded
to sentinel values — the empty template renders to the empty string, and
the empty sample is simply the empty mapping; `format_text` additionally
tolerates a null argument (returned unchanged) and `evaluate_expression` a
null expression (returning `""`); but a null template, null sample or null
variables mapping raises `TypeError`/`AttributeError`. -/
theorem c3_totality_amended :
    (∀ (vars : List (String × VarDef)) (r : RNG),
       generate_sampleN (some vars) r = Except.ok (generate_sample vars r)) ∧
    (∀ (vars : List (String × VarDef)) (r : RNG),
       generate_all_combinationsN (some vars) r =
         Except.ok (generate_all_combinations vars r)) ∧
    (∀ (t : String) (s : Sample),
       render_with_sampleN (some t) (some s) = Except.ok (render_with_sample t s)) ∧
    render_with_sample "" [] = "" ∧
    (∀ (e : String) (s : Sample),
       evaluate_expressionN (some e) (some s) = Except.ok (evaluate_expression e s)) ∧
    (∀ s : Option Sample, evaluate_expressionN Option.none s = Except.ok "") ∧
    format_textN Option.none = Option.none ∧
    (∀ t : String, format_textN (some t) = some (format_text t)) := by
  exact ⟨fun vars r => rfl, fun vars r => rfl, fun t s => rfl, rfl, fun e s => rfl,
    fun s => rfl, rfl, fun t => rfl⟩

-- ### Claim theorem: formatter identity (C9)

theorem string_mk_data (s : String) : String.mk s.data = s := by
  obtain ⟨l⟩ := s
  rfl

theorem subDouble_id (c : Char) (l r : String) :
    ∀ (fuel : Nat) (s : List Char), (∀ d ∈ s, ¬ d = c) → subDouble c l r fuel s = s := by
  intro fuel
  induction fuel with
  | zero => intro s h; rfl
  | succ f ih =>
    intro s h
    cases s with
    | nil => rfl
    | cons x s1 =>
      cases s1 with
      | nil => rfl
      | cons y rest =>
        have hx : ¬ x = c := h x (List.mem_cons_self x _)
        have hcond : ¬ (x = c ∧ y = c) := fun hc => hx hc.1
        simp only [subDouble]
        rw [if_neg hcond]
        rw [ih (y :: rest) (fun d hd => h d (List.mem_cons_of_mem x hd))]

theorem subSingle_id (c : Char) (l r : String) :
    ∀ (fuel : Nat) (prev : Option Char) (s : List Char),
      (∀ d ∈ s, ¬ d = c) → subSingle c l r fuel prev s = s := by
  intro fuel
  induction fuel with
  | zero => intro prev s h; rfl
  | succ f ih =>
    intro prev s h
    cases s with
    | nil => rfl
    | cons x rest =>
      have hx : ¬ x = c := h x (List.mem_cons_self x _)
      have hcond : ¬ (x = c ∧ prev ≠ some c ∧ rest.head? ≠ some c) := fun hc => hx hc.1
      simp only [subSingle]
      rw [if_neg hcond]
      rw [ih (some x) rest (fun d hd => h d (List.mem_cons_of_mem x hd))]

theorem subDoubleP_id (c : Char) (l r : String) (s : List Char)
    (h : ∀ d ∈ s, ¬ d = c) : subDoubleP c l r s = s :=
  subDouble_id c l r (s.length + 1) s h

theorem subSingleP_id (c : Char) (l r : String) (s : List Char)
    (h : ∀ d ∈ s, ¬ d = c) : subSingleP c l r s = s :=
  subSingle_id c l r (s.length + 1) Option.none s h

/-- No markdown marker character occurs in the string. -/
def markerFree (s : String) : Bool :=
  s.data.all (fun c => !(c == '~' || c == '=' || c == '*' || c == '_'))

theorem markerFree_spec (s : String) (h : markerFree s = true) :
    ∀ d ∈ s.data, ¬ d = '~' ∧ ¬ d = '=' ∧ ¬ d = '*' ∧ ¬ d = '_' := by
  intro d hd
  have hall := (List.all_eq_true.mp h) d hd
  simp only [Bool.not_eq_true', Bool.or_eq_false_iff, beq_eq_false_iff_ne, ne_eq] at hall
  exact ⟨hall.1.1.1, hall.1.1.2, hall.1.2, hall.2⟩

/-- Claim C9: `format_text` is the identity on any string containing no
markdown marker character (`~`, `=`, `*`, `_`): each of the six
substitution passes requires its marker to fire; and empty or null input is
returned unchanged. -/
theorem c9_format_identity :
    (∀ s : String, markerFree s = true → format_text s = s) ∧
    format_text "" = "" ∧ format_textN Option.none = Option.none := by
  refine ⟨?_, rfl, rfl⟩
  intro s h
  have hs := markerFree_spec s h
  unfold format_text
  by_cases he : s = ""
  · rw [if_pos he]
  · rw [if_neg he]
    rw [subDoubleP_id '~' _ _ s.data (fun d hd => (hs d hd).1)]
    rw [subDoubleP_id '=' _ _ s.data (fun d hd => (hs d hd).2.1)]
    rw [subDoubleP_id '*' _ _ s.data (fun d hd => (hs d hd).2.2.1)]
    rw [subDoubleP_id '_' _ _ s.data (fun d hd => (hs d hd).2.2.2)]
    rw [subSingleP_id '*' _ _ s.data (fun d hd => (hs d hd).2.2.1)]
    rw [subSingleP_id '_' _ _ s.data (fun d hd => (hs d hd).2.2.2)]

/-- Witness for C9 at a marker-free string. -/
theorem c9_format_identity_witness :
    markerFree "What is 5 + 7?" = true ∧
    format_text "What is 5 + 7?" = "What is 5 + 7?" :=
  ⟨rfl, c9_format_identity.1 "What is 5 + 7?" rfl⟩

-- ### Claim theorem: random-number rule bounds (C8)

/-- A `random_number` rule with integer payloads. -/
def randNumDef (mn mx st : Int) : VarDef :=
  { rule_data := { type := some "random_number", min := some (vInt mn),
                   max := some (vInt mx), step := some (vInt st) } }

theorem generate_value_randnum (mn mx st : Int) (name : String) (current : Sample)
    (r : RNG) :
    generate_value name (randNumDef mn mx st) current r =
      (if st ≤ 1 then
        match randint mn mx r with
        | (Except.ok v, r') => (vInt v, r')
        | (Except.error _, r') => (vStr "<err>", r')
      else
        match (rangeStep mn mx st).map vInt with
        | [] =>
          match randint mn mx r with
          | (Except.ok v, r') => (vInt v, r')
          | (Except.error _, r') => (vStr "<err>", r')
        | c :: cs =>
          match pyChoice (c :: cs) r with
          | (Except.ok v, r') => (v, r')
          | (Except.error _, r') => (vStr "<err>", r')) := rfl

theorem randint_le (mn mx : Int) (r : RNG) (h : mn ≤ mx) :
    randint mn mx r =
      (Except.ok (mn + ((nextNat r).1 : Int) % (mx - mn + 1)), (nextNat r).2) := by
  unfold randint
  rw [if_pos h]

theorem randint_val_bounds (mn mx : Int) (h : mn ≤ mx) (n : Nat) :
    mn ≤ mn + (n : Int) % (mx - mn + 1) ∧ mn + (n : Int) % (mx - mn + 1) ≤ mx := by
  have hpos : 0 < mx - mn + 1 := by omega
  have h1 : 0 ≤ (n : Int) % (mx - mn + 1) := Int.emod_nonneg _ (by omega)
  have h2 : (n : Int) % (mx - mn + 1) < mx - mn + 1 := Int.emod_lt_of_pos _ hpos
  omega

theorem rangeStep_ne_nil (mn mx st : Int) (h1 : mn ≤ mx) (h2 : 0 < st) :
    rangeStep mn mx st ≠ [] := by
  unfold rangeStep
  rw [if_pos ⟨h1, h2⟩]
  simp [List.range_succ]

theorem rangeStep_mem (mn mx st : Int) (h1 : mn ≤ mx) (h2 : 0 < st) :
    ∀ v ∈ rangeStep mn mx st, ∃ k : Nat, v = mn + st * k ∧ v ≤ mx := by
  intro v hv
  unfold rangeStep at hv
  rw [if_pos ⟨h1, h2⟩] at hv
  obtain ⟨k, hk, rfl⟩ := List.mem_map.mp hv
  refine ⟨k, rfl, ?_⟩
  rw [List.mem_range] at hk
  have hk' : k ≤ ((mx - mn) / st).toNat := Nat.lt_succ_iff.mp hk
  have h0 : (0 : Int) ≤ (mx - mn) / st := Int.ediv_nonneg (by omega) (by omega)
  have hk2 : (k : Int) ≤ (mx - mn) / st := by
    calc (k : Int) ≤ (((mx - mn) / st).toNat : Int) := by exact_mod_cast hk'
      _ = (mx - mn) / st := Int.toNat_of_nonneg h0
  have hmul : st * (k : Int) ≤ st * ((mx - mn) / st) :=
    mul_le_mul_of_nonneg_left hk2 (le_of_lt h2)
  have hid : st * ((mx - mn) / st) + (mx - mn) % st = mx - mn := Int.ediv_add_emod _ _
  have hnn : 0 ≤ (mx - mn) % st := Int.emod_nonneg _ (by omega)
  linarith

/-- Claim C8: for a `random_number` rule with integer payloads and
`min ≤ max`: with `step ≤ 1` every generated value is an integer in
`[min, max]`; with `step > 1` every generated value lies in
`{min, min+step, min+2·step, ...}` bounded by `max`; if that stepped set
were empty the fallback would again produce an integer in `[min, max]`
(with `min ≤ max` the stepped set is never empty, so this holds vacuously);
and for `min 0, max 10, step 3` every generated value is in `{0,3,6,9}`. -/
theorem c8_random_number_bounds :
    (∀ (mn mx st : Int) (name : String) (current : Sample) (r : RNG), mn ≤ mx →
      (st ≤ 1 →
        ∃ v, (generate_value name (randNumDef mn mx st) current r).1 = vInt v ∧
          mn ≤ v ∧ v ≤ mx) ∧
      (1 < st →
        ∃ k : Nat, (generate_value name (randNumDef mn mx st) current r).1 =
            vInt (mn + st * k) ∧ mn + st * (k : Int) ≤ mx) ∧
      (1 < st → rangeStep mn mx st = [] →
        ∃ v, (generate_value name (randNumDef mn mx st) current r).1 = vInt v ∧
          mn ≤ v ∧ v ≤ mx)) ∧
    (∀ (name : String) (current : Sample) (r : RNG),
      (generate_value name (randNumDef 0 10 3) current r).1 ∈
        [vInt 0, vInt 3, vInt 6, vInt 9]) := by
  constructor
  · intro mn mx st name current r hmn
    refine ⟨?_, ?_, ?_⟩
    · intro hst
      rw [generate_value_randnum, if_pos hst, randint_le mn mx r hmn]
      exact ⟨mn + ((nextNat r).1 : Int) % (mx - mn + 1), rfl,
        randint_val_bounds mn mx hmn (nextNat r).1⟩
    · intro hst
      rw [generate_value_randnum, if_neg (not_le.mpr hst)]
      cases hrs : rangeStep mn mx st with
      | nil => exact absurd hrs (rangeStep_ne_nil mn mx st hmn (by omega))
      | cons x xs =>
        rw [List.map_cons]
        have hres : (match vInt x :: xs.map vInt with
            | [] =>
              match randint mn mx r with
              | (Except.ok v, r') => (vInt v, r')
              | (Except.error _, r') => (vStr "<err>", r')
            | c :: cs =>
              match pyChoice (c :: cs) r with
              | (Except.ok v, r') => (v, r')
              | (Except.error _, r') => (vStr "<err>", r')).1 =
            (vInt x :: xs.map vInt).get
              ⟨(nextNat r).1 % (vInt x :: xs.map vInt).length,
               Nat.mod_lt _ (Nat.succ_pos _)⟩ := rfl
        have hmem : (vInt x :: xs.map vInt).get
            ⟨(nextNat r).1 % (vInt x :: xs.map vInt).length,
             Nat.mod_lt _ (Nat.succ_pos _)⟩ ∈ List.map vInt (x :: xs) :=
          List.get_mem _ _ _
        obtain ⟨w, hw, hweq⟩ := List.mem_map.mp hmem
        rw [← hrs] at hw
        obtain ⟨k, hk1, hk2⟩ := rangeStep_mem mn mx st hmn (by omega) w hw
        refine ⟨k, ?_, by omega⟩
        rw [hres, ← hweq, hk1]
    · intro hst hempty
      exact absurd hempty (rangeStep_ne_nil mn mx st hmn (by omega))
  · intro name current r
    have hred : (generate_value name (randNumDef 0 10 3) current r).1 =
        ([vInt 0, vInt 3, vInt 6, vInt 9]).get
          ⟨(nextNat r).1 % 4, Nat.mod_lt _ (by norm_num)⟩ := rfl
    rw [hred]
    exact List.get_mem _ _ _

/-- Witness for C8 at `min 0, max 10, step 3` with one oracle draw. -/
theorem c8_random_number_bounds_witness :
    (0 : Int) ≤ 10 ∧ (1 : Int) < 3 ∧
    ∃ k : Nat, (generate_value "n" (randNumDef 0 10 3) [] [5]).1 =
        vInt (0 + 3 * k) ∧ (0 : Int) + 3 * (k : Int) ≤ 10 :=
  ⟨by norm_num, by norm_num,
    (c8_random_number_bounds.1 0 10 3 "n" [] [5] (by norm_num)).2.1 (by norm_num)⟩

-- ### Invariant lemmas for the sample generator (C6)

theorem isErrSentinel_false_ne (v : PyVal) (h : isErrSentinel v = false) :
    v ≠ vStr "<err>" := by
  intro hv
  subst hv
  exact absurd h (by decide)

theorem keysNodup_append (s : Sample) (name : String) (v : PyVal)
    (h1 : (s.map Prod.fst).Nodup) (h2 : lookupLast s name = Option.none) :
    ((s ++ [(name, v)]).map Prod.fst).Nodup := by
  rw [List.map_append, List.map_cons, List.map_nil, List.nodup_append]
  refine ⟨h1, List.nodup_singleton _, ?_⟩
  intro a ha hb
  rw [List.mem_singleton] at hb
  have hb' : a = name := hb
  have hna : name ∈ s.map Prod.fst := hb' ▸ ha
  exact (lookupLast_eq_none_iff name s).mp h2 hna

theorem passVars_invariant (vs : List (String × VarDef)) :
    ∀ (s : Sample) (r : RNG),
      ∃ ext : Sample,
        (passVars vs s r).1 = s ++ ext ∧
        (∀ p ∈ ext, p.1 ∈ vs.map Prod.fst ∧ isErrSentinel p.2 = false) ∧
        ((s.map Prod.fst).Nodup → ((s ++ ext).map Prod.fst).Nodup) := by
  induction vs with
  | nil =>
    intro s r
    exact ⟨[], by simp [passVars], by simp, fun h => by simpa using h⟩
  | cons q rest ih =>
    intro s r
    obtain ⟨name, vdef⟩ := q
    by_cases h1 : (lookupLast s name).isSome
    · obtain ⟨ext, he, hp, hn⟩ := ih s r
      refine ⟨ext, ?_, ?_, hn⟩
      · rw [show passVars ((name, vdef) :: rest) s r = passVars rest s r from by
          simp [passVars, h1]]
        exact he
      · intro p hp'
        exact ⟨List.mem_cons_of_mem _ (hp p hp').1, (hp p hp').2⟩
    · have h1' : lookupLast s name = Option.none := Option.not_isSome_iff_eq_none.mp h1
      by_cases h2 : isErrSentinel (generate_value name vdef s r).1 = true
      · obtain ⟨ext, he, hp, hn⟩ := ih s (generate_value name vdef s r).2
        refine ⟨ext, ?_, ?_, hn⟩
        · rw [show passVars ((name, vdef) :: rest) s r =
              passVars rest s (generate_value name vdef s r).2 from by
            simp [passVars, h1, h2]]
          exact he
        · intro p hp'
          exact ⟨List.mem_cons_of_mem _ (hp p hp').1, (hp p hp').2⟩
      · have h2' : isErrSentinel (generate_value name vdef s r).1 = false := by
          simpa using h2
        obtain ⟨ext, he, hp, hn⟩ :=
          ih (s ++ [(name, (generate_value name vdef s r).1)])
            (generate_value name vdef s r).2
        refine ⟨(name, (generate_value name vdef s r).1) :: ext, ?_, ?_, ?_⟩
        · rw [show passVars ((name, vdef) :: rest) s r =
              passVars rest (s ++ [(name, (generate_value name vdef s r).1)])
                (generate_value name vdef s r).2 from by
            simp [passVars, h1, h2]]
          rw [he, List.append_assoc, List.singleton_append]
        · intro p hp'
          rcases List.mem_cons.mp hp' with hpeq | hmem
          · subst hpeq
            exact ⟨List.mem_cons_self _ _, h2'⟩
          · exact ⟨List.mem_cons_of_mem _ (hp p hmem).1, (hp p hmem).2⟩
        · intro hnod
          have hk := keysNodup_append s name (generate_value name vdef s r).1 hnod h1'
          have hk2 := hn hk
          rw [List.append_assoc, List.singleton_append] at hk2
          exact hk2

theorem runPasses_invariant (cnt : Nat) (vs : List (String × VarDef)) :
    ∀ (s : Sample) (r : RNG),
      ∃ ext : Sample,
        (runPasses cnt vs s r).1 = s ++ ext ∧
        (∀ p ∈ ext, p.1 ∈ vs.map Prod.fst ∧ isErrSentinel p.2 = false) ∧
        ((s.map Prod.fst).Nodup → ((s ++ ext).map Prod.fst).Nodup) := by
  induction cnt with
  | zero =>
    intro s r
    exact ⟨[], by simp [runPasses], by simp, fun h => by simpa using h⟩
  | succ n ih =>
    intro s r
    obtain ⟨e1, he1, hp1, hn1⟩ := passVars_invariant vs s r
    obtain ⟨e2, he2, hp2, hn2⟩ := ih (passVars vs s r).1 (passVars vs s r).2
    refine ⟨e1 ++ e2, ?_, ?_, ?_⟩
    · rw [show runPasses (n + 1) vs s r =
          runPasses n vs (passVars vs s r).1 (passVars vs s r).2 from rfl]
      rw [he2, he1, List.append_assoc]
    · intro p hp
      rcases List.mem_append.mp hp with h | h
      · exact hp1 p h
      · exact hp2 p h
    · intro hnod
      have k1 := hn1 hnod
      rw [he1] at hn2
      have k2 := hn2 k1
      rw [← List.append_assoc]
      exact k2

theorem fillMissing_invariant (vs : List (String × VarDef)) :
    ∀ s : Sample,
      ∃ ext : Sample,
        fillMissing vs s = s ++ ext ∧
        (∀ p ∈ ext, p.1 ∈ vs.map Prod.fst ∧ p.2 = vStr "?") ∧
        ((s.map Prod.fst).Nodup → ((s ++ ext).map Prod.fst).Nodup) := by
  induction vs with
  | nil =>
    intro s
    exact ⟨[], by simp [fillMissing], by simp, fun h => by simpa using h⟩
  | cons q rest ih =>
    intro s
    obtain ⟨name, vdef⟩ := q
    by_cases h1 : (lookupLast s name).isSome
    · obtain ⟨ext, he, hp, hn⟩ := ih s
      refine ⟨ext, ?_, ?_, hn⟩
      · rw [show fillMissing ((name, vdef) :: rest) s = fillMissing rest s from by
          simp [fillMissing, h1]]
        exact he
      · intro p hp'
        exact ⟨List.mem_cons_of_mem _ (hp p hp').1, (hp p hp').2⟩
    · have h1' : lookupLast s name = Option.none := Option.not_isSome_iff_eq_none.mp h1
      obtain ⟨ext, he, hp, hn⟩ := ih (s ++ [(name, vStr "?")])
      refine ⟨(name, vStr "?") :: ext, ?_, ?_, ?_⟩
      · rw [show fillMissing ((name, vdef) :: rest) s =
            fillMissing rest (s ++ [(name, vStr "?")]) from by
          simp [fillMissing, h1]]
        rw [he, List.append_assoc, List.singleton_append]
      · intro p hp'
        rcases List.mem_cons.mp hp' with hpeq | hmem
        · subst hpeq
          exact ⟨List.mem_cons_self _ _, rfl⟩
        · exact ⟨List.mem_cons_of_mem _ (hp p hmem).1, (hp p hmem).2⟩
      · intro hnod
        have hk := keysNodup_append s name (vStr "?") hnod h1'
        have hk2 := hn hk
        rw [List.append_assoc, List.singleton_append] at hk2
        exact hk2

theorem fillMissing_complete (vs : List (String × VarDef)) :
    ∀ (s : Sample) (n : String), n ∈ vs.map Prod.fst →
      lookupLast s n = Option.none → (n, vStr "?") ∈ fillMissing vs s := by
  induction vs with
  | nil =>
    intro s n hn _
    simp at hn
  | cons q rest ih =>
    intro s n hn hl
    obtain ⟨name, vdef⟩ := q
    by_cases heq : name = n
    · subst heq
      have h1 : ¬ (lookupLast s name).isSome := by simp [hl]
      rw [show fillMissing ((name, vdef) :: rest) s =
          fillMissing rest (s ++ [(name, vStr "?")]) from by
        simp [fillMissing, h1]]
      obtain ⟨ext, he, _, _⟩ := fillMissing_invariant rest (s ++ [(name, vStr "?")])
      rw [he]
      exact List.mem_append_left _ (List.mem_append_right _ (List.mem_singleton.mpr rfl))
    · have hn' : n ∈ rest.map Prod.fst := by
        rw [List.map_cons] at hn
        rcases List.mem_cons.mp hn with h | h
        · exact absurd h.symm heq
        · exact h
      by_cases h1 : (lookupLast s name).isSome
      · rw [show fillMissing ((name, vdef) :: rest) s = fillMissing rest s from by
          simp [fillMissing, h1]]
        exact ih s n hn' hl
      · rw [show fillMissing ((name, vdef) :: rest) s =
            fillMissing rest (s ++ [(name, vStr "?")]) from by
          simp [fillMissing, h1]]
        refine ih _ n hn' ?_
        rw [lookupLast_append_ne n name (vStr "?") heq]
        exact hl

/-- Keys of a generated sample cover the declared names (shared helper). -/
theorem generate_sample_mem_keys (vs : List (String × VarDef)) (r : RNG) (n : String)
    (hn : n ∈ vs.map Prod.fst) : n ∈ ((generate_sample vs r).1).map Prod.fst := by
  have hgs : (generate_sample vs r).1 = fillMissing vs (runPasses 5 vs [] r).1 := rfl
  rw [hgs]
  obtain ⟨e2, he2, _, _⟩ := fillMissing_invariant vs (runPasses 5 vs [] r).1
  rw [he2, List.map_append]
  cases hlk : lookupLast (runPasses 5 vs [] r).1 n with
  | none =>
    have := fillMissing_complete vs (runPasses 5 vs [] r).1 n hn hlk
    rw [he2] at this
    rcases List.mem_append.mp this with h | h
    · exact List.mem_append_left _ (List.mem_map.mpr ⟨(n, vStr "?"), h, rfl⟩)
    · exact List.mem_append_right _ (List.mem_map.mpr ⟨(n, vStr "?"), h, rfl⟩)
  | some w =>
    have : n ∈ ((runPasses 5 vs [] r).1).map Prod.fst := by
      by_contra hc
      rw [(lookupLast_eq_none_iff n _).mpr hc] at hlk
      cases hlk
    exact List.mem_append_left _ this

/-- Claim C6: the generated sample has exactly one entry per declared
variable name (every declared name present, no foreign names, keys without
duplicates); no stored value equals the sentinel `"<err>"` (such values are
discarded by the pass loop, and the fill loop only stores `"?"`); and every
variable still unresolved after the 5-pass retry loop is force-set to
`"?"`. -/
theorem c6_sample_invariants (vs : List (String × VarDef)) (r : RNG) :
    ((∀ n, n ∈ ((generate_sample vs r).1).map Prod.fst ↔ n ∈ vs.map Prod.fst) ∧
      (((generate_sample vs r).1).map Prod.fst).Nodup) ∧
    (∀ p ∈ (generate_sample vs r).1, p.2 ≠ vStr "<err>") ∧
    (∀ n, n ∈ vs.map Prod.fst →
      lookupLast (runPasses 5 vs [] r).1 n = Option.none →
      (n, vStr "?") ∈ (generate_sample vs r).1) := by
  have hgs : (generate_sample vs r).1 = fillMissing vs (runPasses 5 vs [] r).1 := rfl
  obtain ⟨e1, he1, hp1, hn1⟩ := runPasses_invariant 5 vs [] r
  obtain ⟨e2, he2, hp2, hn2⟩ := fillMissing_invariant vs (runPasses 5 vs [] r).1
  rw [List.nil_append] at he1
  refine ⟨⟨?_, ?_⟩, ?_, ?_⟩
  · intro n
    constructor
    · intro hmem
      rw [hgs, he2, List.map_append] at hmem
      rcases List.mem_append.mp hmem with h | h
      · rw [he1] at h
        obtain ⟨p, hp, hpe⟩ := List.mem_map.mp h
        exact hpe ▸ (hp1 p hp).1
      · obtain ⟨p, hp, hpe⟩ := List.mem_map.mp h
        exact hpe ▸ (hp2 p hp).1
    · intro hmem
      exact generate_sample_mem_keys vs r n hmem
  · have k1 : (((runPasses 5 vs [] r).1).map Prod.fst).Nodup := by
      rw [he1]
      have := hn1 (by simp)
      rw [List.nil_append] at this
      exact this
    have k2 := hn2 k1
    rw [hgs, he2]
    exact k2
  · intro p hp
    rw [hgs, he2] at hp
    rcases List.mem_append.mp hp with h | h
    · rw [he1] at h
      exact isErrSentinel_false_ne p.2 (hp1 p h).2
    · rw [(hp2 p h).2]
      intro hcontra
      injection hcontra with hs
      exact absurd hs (by decide)
  · intro n hn hlk
    rw [hgs]
    exact fillMissing_complete vs (runPasses 5 vs [] r).1 n hn hlk

-- ### Lemmas for the combination expander (C7)

theorem combosLoop_length (names : List String) (others : List (String × VarDef)) :
    ∀ (cs : List (List PyVal)) (r : RNG),
      ((combosLoop names others cs r).1).length = cs.length := by
  intro cs
  induction cs with
  | nil => intro r; rfl
  | cons combo rest ih =>
    intro r
    rw [show (combosLoop names others (combo :: rest) r).1 =
        (otherLoop others (names.zip combo) r).1 ::
          (combosLoop names others rest (otherLoop others (names.zip combo) r).2).1
        from rfl]
    rw [List.length_cons, ih]
    rfl

theorem cartesianProduct_length :
    ∀ ls : List (List PyVal), (cartesianProduct ls).length = (ls.map List.length).prod := by
  intro ls
  induction ls with
  | nil => rfl
  | cons xs rest ih =>
    rw [show cartesianProduct (xs :: rest) =
        (xs.map (fun x => (cartesianProduct rest).map (fun c => x :: c))).flatten from rfl]
    rw [List.length_flatten, List.map_map]
    have hmc : (List.map (List.length ∘ fun x => (cartesianProduct rest).map (fun c => x :: c)) xs) =
        List.map (fun _ => (cartesianProduct rest).length) xs := by
      apply List.map_congr_left
      intro a _
      simp
    rw [hmc, ih, List.map_cons, List.prod_cons, List.map_const', List.sum_replicate,
      smul_eq_mul]

theorem cartesianProduct_mem_length :
    ∀ (ls : List (List PyVal)) (c : List PyVal),
      c ∈ cartesianProduct ls → c.length = ls.length := by
  intro ls
  induction ls with
  | nil =>
    intro c hc
    rw [show cartesianProduct [] = [[]] from rfl, List.mem_singleton] at hc
    subst hc
    rfl
  | cons xs rest ih =>
    intro c hc
    rw [show cartesianProduct (xs :: rest) =
        (xs.map (fun x => (cartesianProduct rest).map (fun c => x :: c))).flatten from rfl,
      List.mem_flatten] at hc
    obtain ⟨l, hl, hcl⟩ := hc
    obtain ⟨x, hx, rfl⟩ := List.mem_map.mp hl
    obtain ⟨c', hc', rfl⟩ := List.mem_map.mp hcl
    rw [List.length_cons, List.length_cons, ih c' hc']

theorem otherLoop_keys (others : List (String × VarDef)) :
    ∀ (s : Sample) (r : RNG),
      ((otherLoop others s r).1).map Prod.fst = s.map Prod.fst ++ others.map Prod.fst := by
  induction others with
  | nil => intro s r; simp [otherLoop]
  | cons q rest ih =>
    intro s r
    obtain ⟨name, vdef⟩ := q
    rw [show otherLoop ((name, vdef) :: rest) s r =
        otherLoop rest
          (s ++ [(name, if isErrSentinel (generate_value name vdef s r).1 then vStr "?"
                        else (generate_value name vdef s r).1)])
          (generate_value name vdef s r).2 from rfl]
    rw [ih]
    simp [List.append_assoc]

theorem combosLoop_mem (names : List String) (others : List (String × VarDef)) :
    ∀ (cs : List (List PyVal)) (r : RNG) (s : Sample),
      s ∈ (combosLoop names others cs r).1 →
      ∃ c ∈ cs, ∃ r', s = (otherLoop others (names.zip c) r').1 := by
  intro cs
  induction cs with
  | nil =>
    intro r s hs
    simp [combosLoop] at hs
  | cons combo rest ih =>
    intro r s hs
    rw [show (combosLoop names others (combo :: rest) r).1 =
        (otherLoop others (names.zip combo) r).1 ::
          (combosLoop names others rest (otherLoop others (names.zip combo) r).2).1
        from rfl] at hs
    rcases List.mem_cons.mp hs with hh | hmem
    · exact ⟨combo, List.mem_cons_self _ _, r, hh⟩
    · obtain ⟨c, hc, r', hr⟩ := ih _ s hmem
      exact ⟨c, List.mem_cons_of_mem _ hc, r', hr⟩

/-- The spec's example variable set: one choice variable with three choices
plus one dependent math-expression variable. -/
def exVars : List (String × VarDef) :=
  [("c", { rule_data := { type := some "random_choice",
                          choices := some [vInt 1, vInt 2, vInt 3] } }),
   ("x", { rule_data := { type := some "math_expression",
                          expression := some "c + 1" } })]

/-- A variable set with no choice variable, for the single-sample branch. -/
def exNoChoice : List (String × VarDef) :=
  [("y", { rule_data := { type := some "math_expression",
                          expression := some "1 + 1" } })]

/-- Claim C7: with no RandomChoice variables the expander returns exactly
the one sample produced by the Sample Generator; the output length always
equals the product of the sizes of the choice variables' choices lists
(the empty product 1 when there are none); every returned sample has an
entry for every declared variable; at every step of the non-choice loop an
irresolvable variable (its `generate_value` attempt yields the `"<err>"`
sentinel) is stored as `"?"` while a resolvable one is stored with its
generated value; and the spec's example — one choice variable with three
choices plus one math-expression variable — yields exactly 3 samples, one
per choice value, each with the expression variable resolved. -/
theorem c7_combinations :
    (∀ (vs : List (String × VarDef)) (r : RNG),
       vs.filter (fun p => isChoiceVar p.2) = [] →
       (generate_all_combinations vs r).1 = [(generate_sample vs r).1]) ∧
    (∀ (vs : List (String × VarDef)) (r : RNG),
       ((generate_all_combinations vs r).1).length =
         ((vs.filter (fun p => isChoiceVar p.2)).map
            (fun p => (p.2.rule_data.choices.getD []).length)).prod) ∧
    (∀ (vs : List (String × VarDef)) (r : RNG) (s : Sample),
       s ∈ (generate_all_combinations vs r).1 →
       ∀ n, n ∈ vs.map Prod.fst → n ∈ s.map Prod.fst) ∧
    (∀ (name : String) (vdef : VarDef) (rest : List (String × VarDef))
       (s : Sample) (r : RNG),
       isErrSentinel (generate_value name vdef s r).1 = true →
       otherLoop ((name, vdef) :: rest) s r =
         otherLoop rest (s ++ [(name, vStr "?")]) (generate_value name vdef s r).2) ∧
    (∀ (name : String) (vdef : VarDef) (rest : List (String × VarDef))
       (s : Sample) (r : RNG),
       isErrSentinel (generate_value name vdef s r).1 = false →
       otherLoop ((name, vdef) :: rest) s r =
         otherLoop rest (s ++ [(name, (generate_value name vdef s r).1)])
           (generate_value name vdef s r).2) ∧
    generate_all_combinations exVars [] =
      ([[("c", vInt 1), ("x", vInt 2)], [("c", vInt 2), ("x", vInt 3)],
        [("c", vInt 3), ("x", vInt 4)]], []) := by
  refine ⟨?_, ?_, ?_, ?_, ?_, rfl⟩
  · intro vs r h
    unfold generate_all_combinations
    rw [h]
  · intro vs r
    cases hcv : vs.filter (fun p => isChoiceVar p.2) with
    | nil =>
      have h1 : (generate_all_combinations vs r).1 = [(generate_sample vs r).1] := by
        unfold generate_all_combinations
        rw [hcv]
      rw [h1]
      rfl
    | cons q qs =>
      have h1 : (generate_all_combinations vs r).1 =
          (combosLoop ((q :: qs).map Prod.fst)
            (vs.filter (fun p => !(isChoiceVar p.2)))
            (cartesianProduct ((q :: qs).map (fun p => p.2.rule_data.choices.getD [])))
            r).1 := by
        unfold generate_all_combinations
        rw [hcv]
      rw [h1, combosLoop_length, cartesianProduct_length, List.map_map]
      rfl
  · intro vs r s hs n hn
    cases hcv : vs.filter (fun p => isChoiceVar p.2) with
    | nil =>
      have h1 : (generate_all_combinations vs r).1 = [(generate_sample vs r).1] := by
        unfold generate_all_combinations
        rw [hcv]
      rw [h1, List.mem_singleton] at hs
      subst hs
      exact generate_sample_mem_keys vs r n hn
    | cons q qs =>
      have h1 : (generate_all_combinations vs r).1 =
          (combosLoop ((q :: qs).map Prod.fst)
            (vs.filter (fun p => !(isChoiceVar p.2)))
            (cartesianProduct ((q :: qs).map (fun p => p.2.rule_data.choices.getD [])))
            r).1 := by
        unfold generate_all_combinations
        rw [hcv]
      rw [h1] at hs
      obtain ⟨combo, hcombo, r', hr⟩ := combosLoop_mem _ _ _ r s hs
      subst hr
      rw [otherLoop_keys]
      obtain ⟨p, hpvs, hpn⟩ := List.mem_map.mp hn
      by_cases hch : isChoiceVar p.2 = true
      · have hpf : p ∈ vs.filter (fun p => isChoiceVar p.2) :=
          List.mem_filter.mpr ⟨hpvs, hch⟩
        rw [hcv] at hpf
        have hnames : n ∈ ((q :: qs).map Prod.fst) := List.mem_map.mpr ⟨p, hpf, hpn⟩
        have hlen : combo.length =
            ((q :: qs).map (fun p => p.2.rule_data.choices.getD [])).length :=
          cartesianProduct_mem_length _ _ hcombo
        have hlen2 : ((q :: qs).map Prod.fst).length ≤ combo.length := by
          rw [hlen, List.length_map, List.length_map]
        rw [List.map_fst_zip _ _ hlen2]
        exact List.mem_append_left _ hnames
      · have hpf : p ∈ vs.filter (fun p => !(isChoiceVar p.2)) :=
          List.mem_filter.mpr ⟨hpvs, by simp [hch]⟩
        have hno : n ∈ (vs.filter (fun p => !(isChoiceVar p.2))).map Prod.fst :=
          List.mem_map.mpr ⟨p, hpf, hpn⟩
        exact List.mem_append_right _ hno
  · intro name vdef rest s r herr
    rw [show otherLoop ((name, vdef) :: rest) s r =
        otherLoop rest
          (s ++ [(name, if isErrSentinel (generate_value name vdef s r).1 then vStr "?"
                        else (generate_value name vdef s r).1)])
          (generate_value name vdef s r).2 from rfl]
    rw [herr]
    rfl
  · intro name vdef rest s r hok
    rw [show otherLoop ((name, vdef) :: rest) s r =
        otherLoop rest
          (s ++ [(name, if isErrSentinel (generate_value name vdef s r).1 then vStr "?"
                        else (generate_value name vdef s r).1)])
          (generate_value name vdef s r).2 from rfl]
    rw [hok]
    rfl

/-- A non-choice variable whose expression never resolves (unknown name). -/
def exBadDef : VarDef :=
  { rule_data := { type := some "math_expression", expression := some "nosuch" } }

/-- Witness for C7: the no-choice branch at a concrete variable set, the
fully-populated property at a concrete returned sample of the example
variable set, and the sentinel replacement at a concrete irresolvable
variable. -/
theorem c7_combinations_witness :
    (exNoChoice.filter (fun p => isChoiceVar p.2) = [] ∧
      (generate_all_combinations exNoChoice []).1 = [(generate_sample exNoChoice []).1]) ∧
    "x" ∈ (([("c", vInt 1), ("x", vInt 2)] : Sample)).map Prod.fst ∧
    (isErrSentinel (generate_value "z" exBadDef [] []).1 = true ∧
      otherLoop [("z", exBadDef)] [] [] =
        otherLoop [] ([] ++ [("z", vStr "?")]) (generate_value "z" exBadDef [] []).2) := by
  refine ⟨⟨rfl, c7_combinations.1 exNoChoice [] rfl⟩, ?_,
    rfl, c7_combinations.2.2.2.1 "z" exBadDef [] [] [] rfl⟩
  have hmem : ([("c", vInt 1), ("x", vInt 2)] : Sample) ∈
      (generate_all_combinations exVars []).1 := by
    rw [show (generate_all_combinations exVars []).1 =
        [[("c", vInt 1), ("x", vInt 2)], [("c", vInt 2), ("x", vInt 3)],
         [("c", vInt 3), ("x", vInt 4)]] from rfl]
    exact List.mem_cons_self _ _
  exact c7_combinations.2.2.1 exVars [] _ hmem "x" (by simp [exVars])
